import Mathlib

/-!
Verification of the coach repository's core logic: configuration
resolution (src/config.ts), the bulk download aggregator, persistence
naming and summary formatting (src/download-data.ts), and the workout
upload payload (src/intervals-client.ts), shallowly embedded from the
TypeScript source.  JavaScript numbers are modelled as rationals,
`process.env` as a function from names to `Option String`, and every
remote HTTP call as a field of an oracle structure returning `Option`
(`none` models a thrown/rejected request).
-/

namespace Coach

/-! ### Environment model (src/config.ts)

`process.env` is a map from variable names to string values; `none`
models an unset variable.  JavaScript truthiness on `process.env[k]`:
`undefined` and the empty string are falsy. -/

abbrev Env : Type := String → Option String

def isTruthy : Option String → Bool
  | none => false
  | some s => if s = "" then false else true

/-- Models the JavaScript expression `v || d` for `v : string | undefined`. -/
def jsOr (v : Option String) (d : String) : String :=
  match v with
  | none => d
  | some s => if s = "" then d else s

/-- `String.prototype.trim`: strip whitespace from both ends. -/
def trimWs (l : List Char) : List Char :=
  ((l.dropWhile Char.isWhitespace).reverse.dropWhile Char.isWhitespace).reverse

/-- One line of the env file, as `loadEnvFile` parses it: trim, skip blank
lines and lines starting with `#`, split at the first `=` (`slice(0, eq)`
and `slice(eq + 1)`), trim key and value.  `none` when the line is
skipped (blank, comment, or no `=`). -/
def parseEnvLine (line : String) : Option (String × String) :=
  match trimWs line.data with
  | [] => none
  | c :: cs =>
    if c = '#' then none
    else
      let trimmed := c :: cs
      let keyPart := trimmed.takeWhile (fun d => d ≠ '=')
      match trimmed.dropWhile (fun d => d ≠ '=') with
      | [] => none
      | _ :: valuePart =>
        some (String.mk (trimWs keyPart), String.mk (trimWs valuePart))

def setEnv (env : Env) (k v : String) : Env :=
  fun q => if q = k then some v else env q

/-- `if (!process.env[key]) { process.env[key] = value; }` for one line. -/
def applyEnvLine (env : Env) (line : String) : Env :=
  match parseEnvLine line with
  | none => env
  | some kv => if isTruthy (env kv.1) then env else setEnv env kv.1 kv.2

def hydrateLines (env : Env) (lines : List String) : Env :=
  lines.foldl applyEnvLine env

/-- `loadEnvFile`: an absent or unreadable file (`none`) is a no-op. -/
def loadEnvFile (env : Env) (file : Option (List String)) : Env :=
  match file with
  | none => env
  | some lines => hydrateLines env lines

/-! ### Configuration resolution (src/config.ts, loadConfig) -/

structure IntervalsIcuSection where
  apiKey : Option String
  baseUrl : Option String
deriving DecidableEq, Repr

structure ConfigJson where
  intervalsIcu : Option IntervalsIcuSection
deriving DecidableEq, Repr

structure IntervalsConfig where
  apiKey : String
  baseUrl : Option String
deriving DecidableEq, Repr

/-- The file system and process state `loadConfig` consults:
the process environment, env files (path to lines; `none` = absent or
unreadable), config-file existence and the result of `JSON.parse` on a
config file (`none` models a parse exception). -/
structure Sys where
  env : Env
  envFiles : String → Option (List String)
  configExists : String → Bool
  configParse : String → Option ConfigJson

def apiKeyVar : String := "INTERVALS_ICU_API_KEY"
def baseUrlVar : String := "INTERVALS_ICU_BASE_URL"
def envFileVar : String := "OPENCLAW_ENV_FILE"
def configPathVar : String := "COACH_CONFIG_PATH"

def defaultEnvFilePath : String := "/etc/openclaw/openclaw.env"

/-- `path.join(__dirname, '../config.json')`, kept as an abstract constant. -/
def defaultConfigPath : String := "../config.json"

/-- The environment after the env-file hydration pass at the top of
`loadConfig` (the path variable is read before hydration). -/
def hydratedEnv (sys : Sys) : Env :=
  let envFilePath := jsOr (sys.env envFileVar) defaultEnvFilePath
  loadEnvFile sys.env (sys.envFiles envFilePath)

def configPathOf (sys : Sys) : String :=
  jsOr (hydratedEnv sys configPathVar) defaultConfigPath

def missingKeyMsg (configPath : String) : String :=
  "Missing INTERVALS_ICU_API_KEY and config file not found at " ++ configPath

def missingFieldMsg : String := "config.json missing intervalsIcu.apiKey"

/-- Models the `SyntaxError` a failing `JSON.parse` throws out of
`loadConfig` (it is not caught there). -/
def jsonParseMsg : String := "Unexpected token in JSON"

def loadConfig (sys : Sys) : Except String IntervalsConfig :=
  let env := hydratedEnv sys
  let envApiKey := env apiKeyVar
  let envBaseUrl := env baseUrlVar
  if isTruthy envApiKey then
    .ok { apiKey := envApiKey.getD "", baseUrl := envBaseUrl }
  else
    let configPath := jsOr (env configPathVar) defaultConfigPath
    if sys.configExists configPath then
      match sys.configParse configPath with
      | none => .error jsonParseMsg
      | some config =>
        let key := config.intervalsIcu.bind (fun ic => ic.apiKey)
        if isTruthy key then
          .ok { apiKey := key.getD ""
                baseUrl := config.intervalsIcu.bind (fun ic => ic.baseUrl) }
        else
          .error missingFieldMsg
    else
      .error (missingKeyMsg configPath)

/-! ### Bulk data aggregator (src/download-data.ts)

Every remote HTTP call is a field of an oracle `Remote`; `none` models a
rejected request (the `catch` branch of the corresponding `try`).  Each
id-scoped call also receives the `oldest`/`newest` date-range parameters
the script passes (`START_DATE`/`END_DATE`). -/

structure Athlete where
  id : String
  name : String
deriving DecidableEq, Repr

/-- An activity record (also used for the detail records fetched per
activity): the fields the downloader and the summary read.  Optional
fields model properties the remote JSON may omit; numbers are rationals. -/
structure Activity where
  id : String
  start_date_local : Option String
  type : Option String
  name : Option String
  distance : Option ℚ
  moving_time : Option ℚ
deriving DecidableEq, Repr

structure Remote where
  getAthlete : String → Option Athlete
  getActivities : String → String → String → Option (List Activity)
  getActivityDetail : String → Option Activity
  getStreams : String → Option String
  getEvents : String → String → String → Option (List String)
  getWellness : String → String → String → Option (List String)
  getPowerCurve : String → String → String → Option String

structure DownloadResult where
  athlete : Option Athlete
  activities : List Activity
  activityDetails : List Activity
  calendarEvents : List String
  wellness : List String
  powerCurve : Option String
  streams : List (String × String)
deriving DecidableEq, Repr

/-- `result.streams[activity.id] = data`: JavaScript object assignment
replaces the value of an existing key in place, else appends the key. -/
def setStream (m : List (String × String)) (k v : String) : List (String × String) :=
  if m.any (fun p => p.1 = k) then
    m.map (fun p => if p.1 = k then (k, v) else p)
  else m ++ [(k, v)]

def streamKeys (m : List (String × String)) : List String :=
  m.map (fun p => p.1)

/-- One iteration of the per-activity loop: the stream fetch is nested
inside the detail fetch's `try`; a detail failure is logged and skips the
rest of the iteration, a stream failure is silently swallowed. -/
def processActivity (remote : Remote) (r : DownloadResult) (activity : Activity) :
    DownloadResult :=
  match remote.getActivityDetail activity.id with
  | none => r
  | some detail =>
    let r1 := { r with activityDetails := r.activityDetails ++ [detail] }
    match remote.getStreams activity.id with
    | none => r1
    | some s => { r1 with streams := setStream r1.streams activity.id s }

/-- `const id = result.athlete?.id || athleteId`. -/
def resolvedId (remote : Remote) (athleteId : String) : String :=
  jsOr ((remote.getAthlete athleteId).map (fun a => a.id)) athleteId

def emptyResult : DownloadResult :=
  { athlete := none, activities := [], activityDetails := [], calendarEvents := []
    wellness := [], powerCurve := none, streams := [] }

def downloadAllData (remote : Remote) (athleteId oldest newest : String) :
    DownloadResult :=
  let r0 := emptyResult
  let r1 := match remote.getAthlete athleteId with
    | none => r0
    | some a => { r0 with athlete := some a }
  let id := jsOr (r1.athlete.map (fun a => a.id)) athleteId
  let r2 := match remote.getActivities id oldest newest with
    | none => r1
    | some acts => { r1 with activities := acts }
  let r3 := r2.activities.foldl (processActivity remote) r2
  let r4 := match remote.getEvents id oldest newest with
    | none => r3
    | some es => { r3 with calendarEvents := es }
  let r5 := match remote.getWellness id oldest newest with
    | none => r4
    | some ws => { r4 with wellness := ws }
  match remote.getPowerCurve id oldest newest with
  | none => r5
  | some p => { r5 with powerCurve := some p }

/-! ### Persistence naming (src/download-data.ts, saveData) -/

def dataDir : String := "../data"

/-- `name.replace(/[^a-zA-Z0-9]/g, '-')`, one character at a time. -/
def sanitizeNameChar (c : Char) : Char :=
  if ('a' ≤ c ∧ c ≤ 'z') ∨ ('A' ≤ c ∧ c ≤ 'Z') ∨ ('0' ≤ c ∧ c ≤ '9') then c
  else '-'

def safeName (nm : String) : String :=
  String.mk (nm.data.map sanitizeNameChar)

/-- `timestamp.replace(/[:.]/g, '-')`, one character at a time. -/
def sanitizeTsChar (c : Char) : Char :=
  if c = ':' ∨ c = '.' then '-' else c

def sanitizeTimestamp (t : String) : String :=
  String.mk (t.data.map sanitizeTsChar)

/-- The subdirectory `saveData` creates and returns,
`path.join(DATA_DIR, `${safeName}-${timestamp}`)`, as a function of the
name argument and of the `new Date().toISOString()` reading. -/
def saveSubDir (nm timestamp : String) : String :=
  dataDir ++ "/" ++ safeName nm ++ "-" ++ sanitizeTimestamp timestamp

/-- The 24-character shape of `Date.prototype.toISOString` output:
`d` stands for a decimal digit, every other character is literal. -/
def isoTemplate : List Char := "dddd-dd-ddTdd:dd:dd.dddZ".data

def matchesTemplate : List Char → List Char → Bool
  | [], [] => true
  | t :: ts, c :: cs =>
    (if t = 'd' then c.isDigit else t = c) && matchesTemplate ts cs
  | _, _ => false

def isIsoTimestamp (s : String) : Bool :=
  matchesTemplate isoTemplate s.data

/-! ### Summary formatting (src/download-data.ts, generateSummary)

JavaScript numbers are modelled as rationals; `Math.floor` is floor
division and `%` is the truncated remainder. -/

def jsFloor (q : ℚ) : ℤ := ⌊q⌋

/-- JavaScript `Math.trunc`, the rounding `%` is built on. -/
def jsTrunc (q : ℚ) : ℤ := if 0 ≤ q then ⌊q⌋ else ⌈q⌉

def jsMod (a b : ℚ) : ℚ := a - b * (jsTrunc (a / b) : ℚ)

/-- `x.toFixed(1)` on an exact rational, rounding half away from zero
(the claims only exercise exactly representable values). -/
def toFixed1 (q : ℚ) : String :=
  if 0 ≤ q then
    let n : ℤ := ⌊q * 10 + 1 / 2⌋
    toString (n / 10) ++ "." ++ toString (n % 10)
  else
    let n : ℤ := ⌊-q * 10 + 1 / 2⌋
    "-" ++ toString (n / 10) ++ "." ++ toString (n % 10)

/-- Insertion into the `byType` object: a fresh type string becomes a new
key at the end, an existing one has the activity pushed onto its list. -/
def addToGroup (groups : List (String × List Activity)) (ty : String) (a : Activity) :
    List (String × List Activity) :=
  if groups.any (fun g => g.1 = ty) then
    groups.map (fun g => if g.1 = ty then (g.1, g.2 ++ [a]) else g)
  else groups ++ [(ty, [a])]

def groupByType (acts : List Activity) : List (String × List Activity) :=
  acts.foldl (fun gs a => addToGroup gs (jsOr a.type "Unknown") a) []

/-- One per-type line of the summary:
`   ${type}: ${n} activities, ${(d / 1000).toFixed(1)}km, ${h}h ${m}m`. -/
def groupLine (ty : String) (acts : List Activity) : String :=
  let totalDistance : ℚ := acts.foldl (fun sum a => sum + a.distance.getD 0) 0
  let totalTime : ℚ := acts.foldl (fun sum a => sum + a.moving_time.getD 0) 0
  "   " ++ ty ++ ": " ++ toString acts.length ++ " activities, "
    ++ toFixed1 (totalDistance / 1000) ++ "km, "
    ++ toString (jsFloor (totalTime / 3600)) ++ "h "
    ++ toString (jsFloor (jsMod totalTime 3600 / 60)) ++ "m"

/-- The per-type lines `generateSummary` prints: it groups the detailed
list, falling back to the summary list when the detailed list is empty. -/
def summaryActivityLines (data : DownloadResult) : List String :=
  let source := if data.activityDetails.length ≠ 0 then data.activityDetails
                else data.activities
  (groupByType source).map (fun g => groupLine g.1 g.2)

/-! ### Workout upload (src/intervals-client.ts, uploadWorkout) -/

structure Workout where
  start_date_local : String
  type : String
  name : String
  description : String
  category : Option String
deriving DecidableEq, Repr

structure EventPayload where
  start_date_local : String
  type : String
  name : String
  description : String
  category : String
deriving DecidableEq, Repr

/-- The event object `uploadWorkout` posts:
`category: workout.category || 'WORKOUT'`, other fields passed through. -/
def uploadWorkoutEvent (workout : Workout) : EventPayload :=
  { start_date_local := workout.start_date_local
    type := workout.type
    name := workout.name
    description := workout.description
    category := jsOr workout.category "WORKOUT" }

/-! ## Helper lemmas

### Per-key view of env-file hydration

Hydration acts on each variable independently: its value after the pass
is determined by its initial value and the values the file's lines give
that variable, resolved left to right with "first truthy wins". -/

/-- The value `line` would assign to variable `k`, if any. -/
def lineValueFor (k : String) (line : String) : Option String :=
  match parseEnvLine line with
  | none => none
  | some kv => if kv.1 = k then some kv.2 else none

/-- Left-to-right resolution of one variable: a truthy current value is
kept, a falsy one is replaced by the next assigned value. -/
def resolveKey (c : Option String) (vs : List String) : Option String :=
  vs.foldl (fun cur v => if isTruthy cur then cur else some v) c

lemma applyEnvLine_at (env : Env) (line : String) (k : String) :
    applyEnvLine env line k =
      match lineValueFor k line with
      | none => env k
      | some v => if isTruthy (env k) then env k else some v := by
  unfold applyEnvLine lineValueFor
  cases h : parseEnvLine line with
  | none => rfl
  | some kv =>
    by_cases hk : kv.1 = k
    · subst hk
      by_cases ht : isTruthy (env kv.1) = true
      · simp [ht]
      · simp [Bool.not_eq_true] at ht
        simp [ht, setEnv]
    · have hk' : ¬ (k = kv.1) := fun h => hk h.symm
      by_cases ht : isTruthy (env kv.1) = true
      · simp [hk, ht]
      · simp [Bool.not_eq_true] at ht
        simp [hk, ht, setEnv, hk']

lemma hydrateLines_at (ls : List String) (env : Env) (k : String) :
    hydrateLines env ls k = resolveKey (env k) (ls.filterMap (lineValueFor k)) := by
  induction ls generalizing env with
  | nil => rfl
  | cons l ls ih =>
    show hydrateLines (applyEnvLine env l) ls k = _
    rw [ih, List.filterMap_cons, applyEnvLine_at]
    cases h : lineValueFor k l with
    | none => rfl
    | some v =>
      show resolveKey (if isTruthy (env k) then env k else some v) _ = _
      rfl

lemma resolveKey_truthy (c : Option String) (vs : List String)
    (h : isTruthy c = true) : resolveKey c vs = c := by
  induction vs with
  | nil => rfl
  | cons v vs ih =>
    show resolveKey (if isTruthy c then c else some v) vs = c
    rw [if_pos h, ih]

lemma resolveKey_falsy (c : Option String) (vs : List String)
    (h : isTruthy (resolveKey c vs) = false) :
    isTruthy c = false ∧ ∀ v ∈ vs, v = "" := by
  induction vs generalizing c with
  | nil => exact ⟨h, by intro v hv; cases hv⟩
  | cons v vs ih =>
    have h' : isTruthy (resolveKey (if isTruthy c then c else some v) vs) = false := h
    obtain ⟨hc', hall⟩ := ih _ h'
    by_cases ht : isTruthy c = true
    · rw [if_pos ht] at hc'
      rw [ht] at hc'
      cases hc'
    · simp only [Bool.not_eq_true] at ht
      rw [if_neg (by simp [ht])] at hc'
      have hv : v = "" := by
        by_contra hne
        simp [isTruthy, hne] at hc'
      exact ⟨ht, by
        intro w hw
        rcases List.mem_cons.mp hw with hw | hw
        · exact hw ▸ hv
        · exact hall w hw⟩

lemma resolveKey_all_empty (vs : List String) (hall : ∀ v ∈ vs, v = "")
    (c : Option String) (hc : isTruthy c = false) :
    resolveKey c vs = if vs.isEmpty then c else some "" := by
  induction vs generalizing c with
  | nil => rfl
  | cons v vs ih =>
    have hv : v = "" := hall v (List.mem_cons_self v vs)
    have hall' : ∀ w ∈ vs, w = "" := fun w hw => hall w (List.mem_cons_of_mem v hw)
    show resolveKey (if isTruthy c then c else some v) vs = _
    rw [if_neg (by simp [hc]), hv, ih hall' (some "") (by simp [isTruthy])]
    cases vs <;> simp

lemma resolveKey_idem (c : Option String) (vs : List String) :
    resolveKey (resolveKey c vs) vs = resolveKey c vs := by
  by_cases ht : isTruthy (resolveKey c vs) = true
  · exact resolveKey_truthy _ _ ht
  · simp only [Bool.not_eq_true] at ht
    obtain ⟨hc, hall⟩ := resolveKey_falsy c vs ht
    rw [resolveKey_all_empty vs hall c hc]
    by_cases he : vs.isEmpty = true
    · rw [List.isEmpty_iff] at he
      subst he
      rfl
    · rw [if_neg (by simp [he]),
        resolveKey_all_empty vs hall (some "") (by simp [isTruthy]),
        if_neg (by simp [he])]

/-- Hydration never overwrites a truthy (set, non-empty) variable. -/
lemma hydrateLines_preserves_truthy (env : Env) (ls : List String) (k : String)
    (h : isTruthy (env k) = true) : hydrateLines env ls k = env k := by
  rw [hydrateLines_at, resolveKey_truthy _ _ h]

/-- Hydrating twice from the same lines changes nothing the second time. -/
lemma hydrateLines_idem (env : Env) (ls : List String) (k : String) :
    hydrateLines (hydrateLines env ls) ls k = hydrateLines env ls k := by
  rw [hydrateLines_at, hydrateLines_at ls env k, resolveKey_idem]

lemma loadEnvFile_preserves_truthy (env : Env) (file : Option (List String))
    (k : String) (h : isTruthy (env k) = true) : loadEnvFile env file k = env k := by
  cases file with
  | none => rfl
  | some ls => exact hydrateLines_preserves_truthy env ls k h

lemma loadEnvFile_idem (env : Env) (file : Option (List String)) (k : String) :
    loadEnvFile (loadEnvFile env file) file k = loadEnvFile env file k := by
  cases file with
  | none => rfl
  | some ls => exact hydrateLines_idem env ls k

/-! ### Unfolding lemmas for loadConfig -/

lemma loadConfig_env_truthy (sys : Sys)
    (h : isTruthy (hydratedEnv sys apiKeyVar) = true) :
    loadConfig sys = .ok { apiKey := (hydratedEnv sys apiKeyVar).getD ""
                           baseUrl := hydratedEnv sys baseUrlVar } := by
  unfold loadConfig
  rw [if_pos h]

lemma loadConfig_no_env_key (sys : Sys)
    (h : isTruthy (hydratedEnv sys apiKeyVar) = false) :
    loadConfig sys =
      if sys.configExists (configPathOf sys) then
        match sys.configParse (configPathOf sys) with
        | none => .error jsonParseMsg
        | some config =>
          if isTruthy (config.intervalsIcu.bind fun ic => ic.apiKey) then
            .ok { apiKey := (config.intervalsIcu.bind fun ic => ic.apiKey).getD ""
                  baseUrl := config.intervalsIcu.bind fun ic => ic.baseUrl }
          else .error missingFieldMsg
      else .error (missingKeyMsg (configPathOf sys)) := by
  unfold loadConfig configPathOf
  rw [if_neg (by simp [h])]

/-! ### The per-activity loop -/

lemma processActivity_frame (remote : Remote) (r : DownloadResult) (a : Activity) :
    (processActivity remote r a).athlete = r.athlete
    ∧ (processActivity remote r a).activities = r.activities
    ∧ (processActivity remote r a).calendarEvents = r.calendarEvents
    ∧ (processActivity remote r a).wellness = r.wellness
    ∧ (processActivity remote r a).powerCurve = r.powerCurve := by
  unfold processActivity
  cases remote.getActivityDetail a.id with
  | none => exact ⟨rfl, rfl, rfl, rfl, rfl⟩
  | some d =>
    cases remote.getStreams a.id with
    | none => exact ⟨rfl, rfl, rfl, rfl, rfl⟩
    | some s => exact ⟨rfl, rfl, rfl, rfl, rfl⟩

lemma loop_frame (remote : Remote) (acts : List Activity) (r : DownloadResult) :
    (acts.foldl (processActivity remote) r).athlete = r.athlete
    ∧ (acts.foldl (processActivity remote) r).activities = r.activities
    ∧ (acts.foldl (processActivity remote) r).calendarEvents = r.calendarEvents
    ∧ (acts.foldl (processActivity remote) r).wellness = r.wellness
    ∧ (acts.foldl (processActivity remote) r).powerCurve = r.powerCurve := by
  induction acts generalizing r with
  | nil => exact ⟨rfl, rfl, rfl, rfl, rfl⟩
  | cons a as ih =>
    have hp := processActivity_frame remote r a
    have hi := ih (processActivity remote r a)
    exact ⟨hi.1.trans hp.1, hi.2.1.trans hp.2.1, hi.2.2.1.trans hp.2.2.1,
      hi.2.2.2.1.trans hp.2.2.2.1, hi.2.2.2.2.trans hp.2.2.2.2⟩

lemma processActivity_details (remote : Remote) (r : DownloadResult) (a : Activity) :
    (processActivity remote r a).activityDetails
      = r.activityDetails ++ (remote.getActivityDetail a.id).toList := by
  unfold processActivity
  cases remote.getActivityDetail a.id with
  | none => simp
  | some d =>
    cases remote.getStreams a.id with
    | none => simp
    | some s => simp

lemma loop_details (remote : Remote) (acts : List Activity) (r : DownloadResult) :
    (acts.foldl (processActivity remote) r).activityDetails
      = r.activityDetails
        ++ acts.filterMap (fun a => remote.getActivityDetail a.id) := by
  induction acts generalizing r with
  | nil => simp
  | cons a as ih =>
    rw [List.foldl_cons, ih, processActivity_details, List.filterMap_cons]
    cases remote.getActivityDetail a.id <;> simp

lemma streamKeys_setStream (m : List (String × String)) (k v k' : String) :
    k' ∈ streamKeys (setStream m k v) ↔ k' ∈ streamKeys m ∨ k' = k := by
  unfold setStream streamKeys
  by_cases h : m.any (fun p => p.1 = k) = true
  · rw [if_pos h, List.map_map]
    have hfun : ((fun p : String × String => p.1)
        ∘ fun p : String × String => if p.1 = k then (k, v) else p)
        = fun p : String × String => p.1 := by
      funext p
      by_cases hp : p.1 = k
      · simp [hp]
      · simp [hp]
    rw [hfun]
    constructor
    · exact fun hm => Or.inl hm
    · rintro (hm | hk)
      · exact hm
      · subst hk
        obtain ⟨p, hp, hpk⟩ := List.any_eq_true.mp h
        simp only [decide_eq_true_eq] at hpk
        exact List.mem_map.mpr ⟨p, hp, hpk⟩
  · rw [if_neg h, List.map_append]
    simp

lemma processActivity_streamKeys (remote : Remote) (r : DownloadResult)
    (a : Activity) (k : String) :
    k ∈ streamKeys (processActivity remote r a).streams ↔
      k ∈ streamKeys r.streams
      ∨ (a.id = k ∧ (remote.getActivityDetail a.id).isSome = true
          ∧ (remote.getStreams a.id).isSome = true) := by
  unfold processActivity
  cases remote.getActivityDetail a.id with
  | none => simp
  | some d =>
    cases remote.getStreams a.id with
    | none => simp
    | some s =>
      simp only [Option.isSome_some, and_true]
      rw [show ({ r with activityDetails := r.activityDetails ++ [d] } :
            DownloadResult).streams = r.streams from rfl] at *
      constructor
      · intro hm
        rcases (streamKeys_setStream r.streams a.id s k).mp hm with hm | hm
        · exact Or.inl hm
        · exact Or.inr hm.symm
      · rintro (hm | hm)
        · exact (streamKeys_setStream r.streams a.id s k).mpr (Or.inl hm)
        · exact (streamKeys_setStream r.streams a.id s k).mpr (Or.inr hm.symm)

lemma loop_streamKeys (remote : Remote) (acts : List Activity)
    (r : DownloadResult) (k : String) :
    k ∈ streamKeys ((acts.foldl (processActivity remote) r).streams) ↔
      k ∈ streamKeys r.streams
      ∨ ∃ a ∈ acts, a.id = k ∧ (remote.getActivityDetail a.id).isSome = true
          ∧ (remote.getStreams a.id).isSome = true := by
  induction acts generalizing r with
  | nil => simp
  | cons a as ih =>
    rw [List.foldl_cons, ih, processActivity_streamKeys]
    constructor
    · rintro ((hm | ha) | ⟨b, hb, hbk⟩)
      · exact Or.inl hm
      · exact Or.inr ⟨a, List.mem_cons_self a as, ha⟩
      · exact Or.inr ⟨b, List.mem_cons_of_mem a hb, hbk⟩
    · rintro (hm | ⟨b, hb, hbk⟩)
      · exact Or.inl (Or.inl hm)
      · rcases List.mem_cons.mp hb with hb | hb
        · subst hb
          exact Or.inl (Or.inr hbk)
        · exact Or.inr ⟨b, hb, hbk⟩

lemma loop_athlete (remote : Remote) (acts : List Activity) (r : DownloadResult) :
    (acts.foldl (processActivity remote) r).athlete = r.athlete :=
  (loop_frame remote acts r).1

lemma loop_activities (remote : Remote) (acts : List Activity) (r : DownloadResult) :
    (acts.foldl (processActivity remote) r).activities = r.activities :=
  (loop_frame remote acts r).2.1

lemma loop_events (remote : Remote) (acts : List Activity) (r : DownloadResult) :
    (acts.foldl (processActivity remote) r).calendarEvents = r.calendarEvents :=
  (loop_frame remote acts r).2.2.1

lemma loop_wellness (remote : Remote) (acts : List Activity) (r : DownloadResult) :
    (acts.foldl (processActivity remote) r).wellness = r.wellness :=
  (loop_frame remote acts r).2.2.2.1

lemma loop_power (remote : Remote) (acts : List Activity) (r : DownloadResult) :
    (acts.foldl (processActivity remote) r).powerCurve = r.powerCurve :=
  (loop_frame remote acts r).2.2.2.2

/-! ### Field characterization of downloadAllData -/

lemma dl_athlete (remote : Remote) (aid o n : String) :
    (downloadAllData remote aid o n).athlete = remote.getAthlete aid := by
  simp only [downloadAllData]
  repeat' split
  all_goals simp_all [loop_athlete, emptyResult]

lemma dl_activities (remote : Remote) (aid o n : String) :
    (downloadAllData remote aid o n).activities
      = (remote.getActivities (resolvedId remote aid) o n).getD [] := by
  simp only [downloadAllData, resolvedId]
  repeat' split
  all_goals simp_all [loop_activities, emptyResult]

lemma dl_details (remote : Remote) (aid o n : String) :
    (downloadAllData remote aid o n).activityDetails
      = ((remote.getActivities (resolvedId remote aid) o n).getD []).filterMap
          (fun a => remote.getActivityDetail a.id) := by
  simp only [downloadAllData, resolvedId]
  repeat' split
  all_goals simp_all [loop_details, emptyResult]

lemma dl_events (remote : Remote) (aid o n : String) :
    (downloadAllData remote aid o n).calendarEvents
      = (remote.getEvents (resolvedId remote aid) o n).getD [] := by
  simp only [downloadAllData, resolvedId]
  repeat' split
  all_goals simp_all [loop_events, emptyResult]

lemma dl_wellness (remote : Remote) (aid o n : String) :
    (downloadAllData remote aid o n).wellness
      = (remote.getWellness (resolvedId remote aid) o n).getD [] := by
  simp only [downloadAllData, resolvedId]
  repeat' split
  all_goals simp_all [loop_wellness, emptyResult]

lemma dl_power (remote : Remote) (aid o n : String) :
    (downloadAllData remote aid o n).powerCurve
      = remote.getPowerCurve (resolvedId remote aid) o n := by
  simp only [downloadAllData, resolvedId]
  repeat' split
  all_goals simp_all [loop_power, emptyResult]

lemma dl_streamKeys (remote : Remote) (aid o n : String) (k : String) :
    k ∈ streamKeys (downloadAllData remote aid o n).streams ↔
      ∃ a ∈ (remote.getActivities (resolvedId remote aid) o n).getD [],
        a.id = k ∧ (remote.getActivityDetail a.id).isSome = true
          ∧ (remote.getStreams a.id).isSome = true := by
  have hnil : streamKeys ([] : List (String × String)) = [] := rfl
  simp only [downloadAllData, resolvedId]
  repeat' split
  all_goals simp_all [loop_streamKeys, emptyResult, hnil]

/-! ### Truthiness and message helpers -/

lemma isTruthy_getD_ne (v : Option String) (h : isTruthy v = true) :
    v.getD "" ≠ "" := by
  cases v with
  | none => cases h
  | some s =>
    intro hs
    simp only [Option.getD_some] at hs
    subst hs
    cases h

lemma missingKeyMsg_ne (p : String) : missingKeyMsg p ≠ missingFieldMsg := by
  intro h
  have h1 : (missingKeyMsg p).data.head? = some 'M' := by
    show (("Missing INTERVALS_ICU_API_KEY and config file not found at "
      ++ p).data).head? = some 'M'
    rw [String.data_append]
    rfl
  exact absurd (h ▸ h1) (by decide)

lemma hydratedEnv_preserves_truthy (sys : Sys) (k : String)
    (h : isTruthy (sys.env k) = true) : hydratedEnv sys k = sys.env k :=
  loadEnvFile_preserves_truthy sys.env _ k h

/-! ### Injectivity of timestamp sanitization on ISO-shaped strings -/

lemma matchesTemplate_length (tpl : List Char) :
    ∀ l, matchesTemplate tpl l = true → l.length = tpl.length := by
  induction tpl with
  | nil =>
    intro l h
    cases l with
    | nil => rfl
    | cons c cs => cases h
  | cons t ts ih =>
    intro l h
    cases l with
    | nil => cases h
    | cons c cs =>
      have h' := (Bool.and_eq_true _ _).mp h
      simp only [List.length_cons, ih cs h'.2]

lemma sanitizeTsChar_digit (c : Char) (h : c.isDigit = true) :
    sanitizeTsChar c = c := by
  unfold sanitizeTsChar
  rw [if_neg]
  rintro (h1 | h1) <;> subst h1 <;> cases h

lemma sanitizeTs_inj_on_template (tpl : List Char) :
    ∀ a b : List Char, matchesTemplate tpl a = true → matchesTemplate tpl b = true →
      a.map sanitizeTsChar = b.map sanitizeTsChar → a = b := by
  induction tpl with
  | nil =>
    intro a b ha hb _
    cases a with
    | nil =>
      cases b with
      | nil => rfl
      | cons d ds => cases hb
    | cons c cs => cases ha
  | cons t ts ih =>
    intro a b ha hb hmap
    cases a with
    | nil => cases ha
    | cons c cs =>
      cases b with
      | nil => cases hb
      | cons d ds =>
        have ha' := (Bool.and_eq_true _ _).mp ha
        have hb' := (Bool.and_eq_true _ _).mp hb
        simp only [List.map_cons, List.cons.injEq] at hmap
        have htail : cs = ds := ih cs ds ha'.2 hb'.2 hmap.2
        by_cases ht : t = 'd'
        · rw [if_pos ht] at ha' hb'
          have hc : sanitizeTsChar c = c := sanitizeTsChar_digit c ha'.1
          have hd : sanitizeTsChar d = d := sanitizeTsChar_digit d hb'.1
          rw [hc, hd] at hmap
          rw [hmap.1, htail]
        · rw [if_neg ht] at ha' hb'
          have hc : t = c := by simpa using ha'.1
          have hd : t = d := by simpa using hb'.1
          rw [← hc, ← hd, htail]

lemma sanitizeTimestamp_inj (t1 t2 : String)
    (h1 : isIsoTimestamp t1 = true) (h2 : isIsoTimestamp t2 = true)
    (h : sanitizeTimestamp t1 = sanitizeTimestamp t2) : t1 = t2 := by
  unfold isIsoTimestamp at h1 h2
  have hd : t1.data.map sanitizeTsChar = t2.data.map sanitizeTsChar :=
    congrArg String.data h
  exact String.ext (sanitizeTs_inj_on_template isoTemplate t1.data t2.data h1 h2 hd)

lemma saveSubDir_data (nm t : String) :
    (saveSubDir nm t).data
      = (dataDir ++ "/" ++ safeName nm ++ "-").data ++ t.data.map sanitizeTsChar := by
  unfold saveSubDir
  rw [show dataDir ++ "/" ++ safeName nm ++ "-" ++ sanitizeTimestamp t
      = (dataDir ++ "/" ++ safeName nm ++ "-") ++ sanitizeTimestamp t from rfl]
  rw [String.data_append]
  rfl

/-! ## Concrete fixtures used by witnesses and counterexamples -/

def sysC1 : Sys :=
  { env := fun k => if k = "INTERVALS_ICU_API_KEY" then some "A" else none
    envFiles := fun p =>
      if p = defaultEnvFilePath then some ["INTERVALS_ICU_BASE_URL=U"] else none
    configExists := fun _ => false
    configParse := fun _ => none }

def envC4 : Env := fun k => if k = "API_KEY" then some "" else none

def sysC4w : Sys :=
  { env := fun k => if k = "INTERVALS_ICU_API_KEY" then some "A" else none
    envFiles := fun p =>
      if p = defaultEnvFilePath then some ["INTERVALS_ICU_API_KEY=B"] else none
    configExists := fun _ => false
    configParse := fun _ => none }

def sysC5 : Sys :=
  { env := fun _ => none
    envFiles := fun _ => none
    configExists := fun _ => false
    configParse := fun _ => none }

def sysC5b : Sys :=
  { env := fun _ => none
    envFiles := fun _ => none
    configExists := fun _ => true
    configParse := fun _ =>
      some { intervalsIcu := some { apiKey := none, baseUrl := some "B" } } }

/-! ## Claim theorems: configuration resolution -/

/-- Claim C1, amended.  The apiKey comes from exactly the
highest-precedence source whose key is non-empty (pre-set environment
variable, then env-file-hydrated environment variable, then config
file), and a non-empty value of the chosen source is never displaced;
the returned baseUrl, however, is always read from the post-hydration
environment when the environment supplies the key, so an env-file base
URL can accompany a pre-set environment apiKey. -/
theorem loadConfig_precedence (sys : Sys) :
    (isTruthy (sys.env apiKeyVar) = true →
      loadConfig sys = .ok { apiKey := (sys.env apiKeyVar).getD ""
                             baseUrl := hydratedEnv sys baseUrlVar })
    ∧ (isTruthy (sys.env apiKeyVar) = false →
       isTruthy (hydratedEnv sys apiKeyVar) = true →
      loadConfig sys = .ok { apiKey := (hydratedEnv sys apiKeyVar).getD ""
                             baseUrl := hydratedEnv sys baseUrlVar })
    ∧ (isTruthy (hydratedEnv sys apiKeyVar) = false →
      ∀ c, loadConfig sys = .ok c →
        ∃ cfg, sys.configParse (configPathOf sys) = some cfg
          ∧ isTruthy (cfg.intervalsIcu.bind fun ic => ic.apiKey) = true
          ∧ c.apiKey = (cfg.intervalsIcu.bind fun ic => ic.apiKey).getD ""
          ∧ c.baseUrl = cfg.intervalsIcu.bind fun ic => ic.baseUrl) := by
  refine ⟨fun h1 => ?_, fun h1 h2 => ?_, fun h1 c hc => ?_⟩
  · have hp := hydratedEnv_preserves_truthy sys apiKeyVar h1
    rw [loadConfig_env_truthy sys (by rw [hp]; exact h1), hp]
  · rw [loadConfig_env_truthy sys h2]
  · rw [loadConfig_no_env_key sys h1] at hc
    by_cases he : sys.configExists (configPathOf sys) = true
    · rw [if_pos he] at hc
      cases hp : sys.configParse (configPathOf sys) with
      | none =>
        rw [hp] at hc
        cases hc
      | some cfg =>
        rw [hp] at hc
        simp only [] at hc
        by_cases hk : isTruthy (cfg.intervalsIcu.bind fun ic => ic.apiKey) = true
        · rw [if_pos hk] at hc
          injection hc with hc
          subst hc
          exact ⟨cfg, rfl, hk, rfl, rfl⟩
        · rw [if_neg hk] at hc
          cases hc
    · rw [if_neg he] at hc
      cases hc

/-- Claim C1 counterexample.  With the apiKey pre-set in the environment
(the highest-precedence source), no base URL set there, and an env file
supplying `INTERVALS_ICU_BASE_URL=U`, the returned configuration pairs the
tier-1 apiKey with the env file's base URL, so the `{apiKey, baseUrl}`
pair does not come from exactly one source. -/
theorem loadConfig_envfile_baseurl_leak :
    sysC1.env apiKeyVar = some "A"
    ∧ sysC1.env baseUrlVar = none
    ∧ sysC1.envFiles defaultEnvFilePath = some ["INTERVALS_ICU_BASE_URL=U"]
    ∧ loadConfig sysC1 = .ok { apiKey := "A", baseUrl := some "U" } :=
  ⟨rfl, rfl, rfl, rfl⟩

/-- Claim C1 witness: the amended precedence theorem applied to a
concrete system whose pre-set environment key wins. -/
theorem loadConfig_precedence_witness :
    loadConfig sysC1 = .ok { apiKey := (sysC1.env apiKeyVar).getD ""
                             baseUrl := hydratedEnv sysC1 baseUrlVar } :=
  (loadConfig_precedence sysC1).1 rfl

/-- Claim C4, amended.  Env-file hydration leaves every truthy
(set and non-empty) environment variable unchanged, and hydrating a
second time from the same env file is a no-op, so a repeated
`loadConfig` that reads the same env-file path observes and produces the
same environment state.  (A variable present with an empty value is
overwritten; see the counterexample.) -/
theorem hydration_no_overwrite_idem (sys : Sys) (k : String) :
    (isTruthy (sys.env k) = true → hydratedEnv sys k = sys.env k)
    ∧ loadEnvFile (hydratedEnv sys)
        (sys.envFiles (jsOr (sys.env envFileVar) defaultEnvFilePath)) k
      = hydratedEnv sys k :=
  ⟨hydratedEnv_preserves_truthy sys k, loadEnvFile_idem sys.env _ k⟩

/-- Claim C4 counterexample.  A variable already present in the
environment with the empty string as value is overwritten by hydration
(the guard is JavaScript truthiness, not presence). -/
theorem hydration_overwrites_present_empty :
    envC4 "API_KEY" = some ""
    ∧ loadEnvFile envC4 (some ["API_KEY=B"]) "API_KEY" = some "B" :=
  ⟨rfl, rfl⟩

/-- Claim C4 witness: hydration from a file containing `B` leaves a
pre-set non-empty `A` unchanged. -/
theorem hydration_no_overwrite_witness :
    hydratedEnv sysC4w "INTERVALS_ICU_API_KEY"
      = sysC4w.env "INTERVALS_ICU_API_KEY" :=
  (hydration_no_overwrite_idem sysC4w "INTERVALS_ICU_API_KEY").1 rfl

/-- Claim C5.  With the API-key environment variable falsy after
hydration: a missing config file yields the missing-key error; an
existing config file whose nested section lacks a non-empty apiKey
yields the distinct missing-field error; the two messages always
differ; and resolution never succeeds with an empty apiKey. -/
theorem loadConfig_failure_modes (sys : Sys) :
    (isTruthy (hydratedEnv sys apiKeyVar) = false →
      sys.configExists (configPathOf sys) = false →
      loadConfig sys = .error (missingKeyMsg (configPathOf sys)))
    ∧ (∀ cfg, isTruthy (hydratedEnv sys apiKeyVar) = false →
      sys.configExists (configPathOf sys) = true →
      sys.configParse (configPathOf sys) = some cfg →
      isTruthy (cfg.intervalsIcu.bind fun ic => ic.apiKey) = false →
      loadConfig sys = .error missingFieldMsg)
    ∧ (∀ p, missingKeyMsg p ≠ missingFieldMsg)
    ∧ (∀ c, loadConfig sys = .ok c → c.apiKey ≠ "") := by
  refine ⟨fun h1 h2 => ?_, fun cfg h1 he hp hk => ?_, missingKeyMsg_ne,
    fun c hc => ?_⟩
  · rw [loadConfig_no_env_key sys h1, if_neg (by simp [h2])]
  · rw [loadConfig_no_env_key sys h1, if_pos he, hp]
    simp [hk]
  · by_cases h1 : isTruthy (hydratedEnv sys apiKeyVar) = true
    · rw [loadConfig_env_truthy sys h1] at hc
      injection hc with hc
      subst hc
      exact isTruthy_getD_ne _ h1
    · rw [loadConfig_no_env_key sys (by simpa using h1)] at hc
      by_cases he : sys.configExists (configPathOf sys) = true
      · rw [if_pos he] at hc
        cases hp : sys.configParse (configPathOf sys) with
        | none =>
          rw [hp] at hc
          cases hc
        | some cfg =>
          rw [hp] at hc
          simp only [] at hc
          by_cases hk : isTruthy (cfg.intervalsIcu.bind fun ic => ic.apiKey) = true
          · rw [if_pos hk] at hc
            injection hc with hc
            subst hc
            exact isTruthy_getD_ne _ hk
          · rw [if_neg hk] at hc
            cases hc
      · rw [if_neg he] at hc
        cases hc

/-- Claim C5 witness: both failure modes at concrete systems. -/
theorem loadConfig_failure_modes_witness :
    loadConfig sysC5 = .error (missingKeyMsg (configPathOf sysC5))
    ∧ loadConfig sysC5b = .error missingFieldMsg :=
  ⟨(loadConfig_failure_modes sysC5).1 rfl rfl,
   (loadConfig_failure_modes sysC5b).2.1 _ rfl rfl rfl rfl⟩

/-! ## Claim theorems: bulk download aggregator -/

def actOf (i : String) : Activity :=
  { id := i, start_date_local := none, type := none, name := none
    distance := none, moving_time := none }

def failRemote : Remote :=
  { getAthlete := fun _ => none
    getActivities := fun _ _ _ => none
    getActivityDetail := fun _ => none
    getStreams := fun _ => none
    getEvents := fun _ _ _ => none
    getWellness := fun _ _ _ => none
    getPowerCurve := fun _ _ _ => none }

/-- Athlete resolves, activities list has three entries: the detail fetch
fails only for `a3`, the stream fetch fails only for `a2` (and would
succeed for `a3`, but is never attempted there). -/
def mixRemote : Remote :=
  { getAthlete := fun _ => some { id := "i1", name := "Ath" }
    getActivities := fun i _ _ =>
      if i = "i1" then some [actOf "a1", actOf "a2", actOf "a3"] else none
    getActivityDetail := fun i => if i = "a3" then none else some (actOf i)
    getStreams := fun i => if i = "a2" then none else some ("s-" ++ i)
    getEvents := fun _ _ _ => some ["e1"]
    getWellness := fun _ _ _ => some ["w1"]
    getPowerCurve := fun _ _ _ => some "pc" }

def athleteEmptyId : Athlete := { id := "", name := "X" }

/-- The athlete fetch succeeds but the resolved record's id is the empty
string; the activities endpoint distinguishes the two candidate ids. -/
def remoteC8 : Remote :=
  { getAthlete := fun _ => some athleteEmptyId
    getActivities := fun i _ _ =>
      if i = "me" then some [actOf "from-me"]
      else if i = "" then some [actOf "from-empty"] else none
    getActivityDetail := fun _ => none
    getStreams := fun _ => none
    getEvents := fun _ _ _ => none
    getWellness := fun _ _ _ => none
    getPowerCurve := fun _ _ _ => none }

/-- The athlete fetch fails; every id-scoped endpoint only answers for
the original input id `me`. -/
def remoteC8w : Remote :=
  { getAthlete := fun _ => none
    getActivities := fun i _ _ => if i = "me" then some [actOf "m1"] else none
    getActivityDetail := fun _ => none
    getStreams := fun _ => none
    getEvents := fun i _ _ => if i = "me" then some ["e1"] else none
    getWellness := fun i _ _ => if i = "me" then some ["w1"] else none
    getPowerCurve := fun i _ _ => if i = "me" then some "pc" else none }

/-- Claim C2.  Each of the six fetch steps degrades independently: a
failing athlete fetch leaves `athlete = none`, failing list fetches
leave their field empty, a failing power-curve fetch leaves it `none`,
and an id whose stream fetch fails never appears among the stream keys;
`downloadAllData` is a total function, so no combination of failures
aborts it and every field of the returned record is present. -/
theorem downloadAll_partial_failure (remote : Remote) (aid o n : String) :
    (remote.getAthlete aid = none →
      (downloadAllData remote aid o n).athlete = none)
    ∧ (remote.getActivities (resolvedId remote aid) o n = none →
      (downloadAllData remote aid o n).activities = [])
    ∧ (∀ k, remote.getStreams k = none →
      k ∉ streamKeys (downloadAllData remote aid o n).streams)
    ∧ (remote.getEvents (resolvedId remote aid) o n = none →
      (downloadAllData remote aid o n).calendarEvents = [])
    ∧ (remote.getWellness (resolvedId remote aid) o n = none →
      (downloadAllData remote aid o n).wellness = [])
    ∧ (remote.getPowerCurve (resolvedId remote aid) o n = none →
      (downloadAllData remote aid o n).powerCurve = none) := by
  refine ⟨fun h => ?_, fun h => ?_, fun k hk hmem => ?_, fun h => ?_,
    fun h => ?_, fun h => ?_⟩
  · rw [dl_athlete, h]
  · rw [dl_activities, h]
    rfl
  · rw [dl_streamKeys] at hmem
    obtain ⟨a, _, hak, _, hstr⟩ := hmem
    rw [hak, hk] at hstr
    cases hstr
  · rw [dl_events, h]
    rfl
  · rw [dl_wellness, h]
    rfl
  · rw [dl_power, h]

/-- Claim C2 witness: with every fetch failing, the aggregator still
returns the fully defaulted record. -/
theorem downloadAll_partial_failure_witness :
    (downloadAllData failRemote "me" "2025-12-25" "2026-02-01").athlete = none
    ∧ (downloadAllData failRemote "me" "2025-12-25" "2026-02-01").activities = []
    ∧ (downloadAllData failRemote "me" "2025-12-25" "2026-02-01").calendarEvents = []
    ∧ (downloadAllData failRemote "me" "2025-12-25" "2026-02-01").wellness = []
    ∧ (downloadAllData failRemote "me" "2025-12-25" "2026-02-01").powerCurve = none := by
  have h := downloadAll_partial_failure failRemote "me" "2025-12-25" "2026-02-01"
  exact ⟨h.1 rfl, h.2.1 rfl, h.2.2.2.1 rfl, h.2.2.2.2.1 rfl, h.2.2.2.2.2 rfl⟩

/-- Claim C3.  The detailed-activity list is exactly the successful
detail fetches in input iteration order (`filterMap` over the fetched
activities), and an id is a stream key exactly when some fetched
activity carries it and both its detail fetch and its stream fetch
succeed (a stream fetch is only attempted after a successful detail
fetch). -/
theorem detail_stream_loop_order_and_keys (remote : Remote) (aid o n : String) :
    (downloadAllData remote aid o n).activityDetails
      = (downloadAllData remote aid o n).activities.filterMap
          (fun a => remote.getActivityDetail a.id)
    ∧ ∀ k, k ∈ streamKeys (downloadAllData remote aid o n).streams ↔
        ∃ a ∈ (downloadAllData remote aid o n).activities,
          a.id = k ∧ (remote.getActivityDetail a.id).isSome = true
            ∧ (remote.getStreams a.id).isSome = true := by
  constructor
  · rw [dl_details, dl_activities]
  · intro k
    rw [dl_streamKeys, dl_activities]

/-- Claim C3 witness: with one full success, one stream failure and one
detail failure, the details keep input order and only `a1` has a stream
key. -/
theorem detail_stream_loop_witness :
    (downloadAllData mixRemote "me" "o" "n").activityDetails
      = (downloadAllData mixRemote "me" "o" "n").activities.filterMap
          (fun a => mixRemote.getActivityDetail a.id)
    ∧ "a1" ∈ streamKeys (downloadAllData mixRemote "me" "o" "n").streams :=
  ⟨(detail_stream_loop_order_and_keys mixRemote "me" "o" "n").1,
   ((detail_stream_loop_order_and_keys mixRemote "me" "o" "n").2 "a1").mpr
     ⟨actOf "a1", by decide, rfl, rfl, rfl⟩⟩

/-- Claim C8, amended.  When the athlete fetch fails, the original input
id is used for every subsequent id-scoped call and the athlete field
stays `none`, while the other fetches' data is still returned; when the
athlete fetch succeeds, the resolved athlete's own id supersedes the
input id only if it is non-empty (`result.athlete?.id || athleteId`
falls back to the input id on an empty resolved id). -/
theorem athlete_id_resolution (remote : Remote) (aid o n : String) :
    (remote.getAthlete aid = none →
      (downloadAllData remote aid o n).athlete = none
      ∧ (downloadAllData remote aid o n).activities
          = (remote.getActivities aid o n).getD []
      ∧ (downloadAllData remote aid o n).calendarEvents
          = (remote.getEvents aid o n).getD []
      ∧ (downloadAllData remote aid o n).wellness
          = (remote.getWellness aid o n).getD []
      ∧ (downloadAllData remote aid o n).powerCurve
          = remote.getPowerCurve aid o n)
    ∧ (∀ a, remote.getAthlete aid = some a → a.id ≠ "" →
      (downloadAllData remote aid o n).athlete = some a
      ∧ (downloadAllData remote aid o n).activities
          = (remote.getActivities a.id o n).getD []
      ∧ (downloadAllData remote aid o n).calendarEvents
          = (remote.getEvents a.id o n).getD []
      ∧ (downloadAllData remote aid o n).wellness
          = (remote.getWellness a.id o n).getD []
      ∧ (downloadAllData remote aid o n).powerCurve
          = remote.getPowerCurve a.id o n)
    ∧ (∀ a, remote.getAthlete aid = some a → a.id = "" →
      (downloadAllData remote aid o n).activities
          = (remote.getActivities aid o n).getD []) := by
  refine ⟨fun h => ?_, fun a h hne => ?_, fun a h hid => ?_⟩
  · have hr : resolvedId remote aid = aid := by
      unfold resolvedId
      rw [h]
      rfl
    exact ⟨by rw [dl_athlete, h], by rw [dl_activities, hr],
      by rw [dl_events, hr], by rw [dl_wellness, hr], by rw [dl_power, hr]⟩
  · have hr : resolvedId remote aid = a.id := by
      unfold resolvedId
      rw [h]
      simp [jsOr, hne]
    exact ⟨by rw [dl_athlete, h], by rw [dl_activities, hr],
      by rw [dl_events, hr], by rw [dl_wellness, hr], by rw [dl_power, hr]⟩
  · have hr : resolvedId remote aid = aid := by
      unfold resolvedId
      rw [h]
      simp [jsOr, hid]
    rw [dl_activities, hr]

/-- Claim C8 counterexample.  The athlete fetch succeeds and resolves to
a record whose own id is the empty string; the subsequent activities
call still uses the original input id `me` (yielding the `from-me`
list), not the resolved athlete's own id (which would yield the
`from-empty` list), so a successful fetch's id does not always
supersede the input id. -/
theorem athlete_empty_id_counterexample :
    remoteC8.getAthlete "me" = some athleteEmptyId
    ∧ (downloadAllData remoteC8 "me" "o" "n").athlete = some athleteEmptyId
    ∧ remoteC8.getActivities athleteEmptyId.id "o" "n" = some [actOf "from-empty"]
    ∧ (downloadAllData remoteC8 "me" "o" "n").activities = [actOf "from-me"] := by
  refine ⟨rfl, ?_, rfl, ?_⟩ <;> decide

/-- Claim C8 witness: athlete fetch fails, every other fetch (scoped to
the original input id) still produces its data. -/
theorem athlete_id_resolution_witness :
    (downloadAllData remoteC8w "me" "o" "n").athlete = none
    ∧ (downloadAllData remoteC8w "me" "o" "n").activities = [actOf "m1"]
    ∧ (downloadAllData remoteC8w "me" "o" "n").calendarEvents = ["e1"]
    ∧ (downloadAllData remoteC8w "me" "o" "n").wellness = ["w1"]
    ∧ (downloadAllData remoteC8w "me" "o" "n").powerCurve = some "pc" := by
  have h := (athlete_id_resolution remoteC8w "me" "o" "n").1 rfl
  exact ⟨h.1, h.2.1.trans (by decide), h.2.2.1.trans (by decide),
    h.2.2.2.1.trans (by decide), h.2.2.2.2.trans (by decide)⟩

/-- Claim C9.  Every stream key belongs to a fetched activity whose
detail fetch succeeded, and that detail record is in the detailed list:
the stream request is nested inside the detail-fetch guard. -/
theorem streams_subset_detail_ids (remote : Remote) (aid o n k : String)
    (hk : k ∈ streamKeys (downloadAllData remote aid o n).streams) :
    ∃ a ∈ (downloadAllData remote aid o n).activities, a.id = k
      ∧ ∃ d, remote.getActivityDetail a.id = some d
          ∧ d ∈ (downloadAllData remote aid o n).activityDetails := by
  rw [dl_streamKeys] at hk
  obtain ⟨a, ha, hak, hdet, _⟩ := hk
  obtain ⟨d, hd⟩ := Option.isSome_iff_exists.mp hdet
  refine ⟨a, ?_, hak, d, hd, ?_⟩
  · rw [dl_activities]
    exact ha
  · rw [dl_details]
    exact List.mem_filterMap.mpr ⟨a, ha, hd⟩

/-- Claim C9 witness: the stream key `a1` of the mixed-outcome run is
the id of a fetched activity whose detail record is in the detail list. -/
theorem streams_subset_detail_ids_witness :
    ∃ a ∈ (downloadAllData mixRemote "me" "o" "n").activities, a.id = "a1"
      ∧ ∃ d, mixRemote.getActivityDetail a.id = some d
          ∧ d ∈ (downloadAllData mixRemote "me" "o" "n").activityDetails :=
  streams_subset_detail_ids mixRemote "me" "o" "n" "a1" (by decide)

/-! ## Claim theorems: persistence naming, summary, workout upload -/

/-- Claim C6, amended.  The subdirectory name is the sanitized name
(every character outside `[a-zA-Z0-9]` replaced by `-`) joined with the
timestamp (colons and periods replaced by `-`), and two save calls
return distinct paths whenever their `toISOString` clock readings
differ; two calls within the same millisecond observe the same reading
and collide (see the counterexample). -/
theorem saveData_subdir_unique (n1 n2 t1 t2 : String)
    (h1 : isIsoTimestamp t1 = true) (h2 : isIsoTimestamp t2 = true)
    (hne : t1 ≠ t2) :
    saveSubDir n1 t1 ≠ saveSubDir n2 t2
    ∧ ∀ c ∈ (safeName n1).data, c.isAlphanum = true ∨ c = '-' := by
  constructor
  · intro heq
    have hd := congrArg String.data heq
    rw [saveSubDir_data, saveSubDir_data] at hd
    have hlen : (t1.data.map sanitizeTsChar).length
        = (t2.data.map sanitizeTsChar).length := by
      rw [List.length_map, List.length_map,
        matchesTemplate_length isoTemplate t1.data h1,
        matchesTemplate_length isoTemplate t2.data h2]
    have hsuf := (List.append_inj' hd hlen).2
    exact hne (sanitizeTimestamp_inj t1 t2 h1 h2 (String.ext hsuf))
  · intro c hc
    obtain ⟨x, hx, hcx⟩ := List.mem_map.mp hc
    rw [← hcx]
    unfold sanitizeNameChar
    by_cases hr : ('a' ≤ x ∧ x ≤ 'z') ∨ ('A' ≤ x ∧ x ≤ 'Z')
        ∨ ('0' ≤ x ∧ x ≤ '9')
    · left
      rw [if_pos hr]
      simp only [Char.isAlphanum, Char.isAlpha, Char.isLower, Char.isUpper,
        Char.isDigit, Bool.or_eq_true, Bool.and_eq_true, decide_eq_true_eq]
      tauto
    · right
      rw [if_neg hr]

/-- Claim C6 counterexample.  The returned path is a pure function of
the name and the millisecond-resolution `toISOString` reading, so two
save calls within the same process that observe the same millisecond
produce the identical subdirectory path, not distinct ones. -/
theorem saveData_same_ms_collision :
    isIsoTimestamp "2026-02-03T04:05:06.789Z" = true
    ∧ saveSubDir "me" "2026-02-03T04:05:06.789Z"
        = "../data/me-2026-02-03T04-05-06-789Z"
    ∧ saveSubDir "me" "2026-02-03T04:05:06.789Z"
        = saveSubDir "me" "2026-02-03T04:05:06.789Z" := by
  refine ⟨by decide, by decide, rfl⟩

/-- Claim C6 witness: two well-formed timestamps one millisecond apart
give distinct paths for the same name, and the sanitized name is
alphanumerics and hyphens only. -/
theorem saveData_subdir_unique_witness :
    saveSubDir "me" "2026-02-03T04:05:06.789Z"
      ≠ saveSubDir "me" "2026-02-03T04:05:06.790Z"
    ∧ ∀ c ∈ (safeName "me").data, c.isAlphanum = true ∨ c = '-' :=
  saveData_subdir_unique "me" "me" _ _ (by decide) (by decide) (by decide)

def runActivity1 : Activity :=
  { id := "a1", start_date_local := none, type := some "Run", name := none
    distance := some 5000, moving_time := some 1800 }

def runActivity2 : Activity :=
  { id := "a2", start_date_local := none, type := some "Run", name := none
    distance := some 10000, moving_time := some 3600 }

def c7Result : DownloadResult :=
  { emptyResult with activityDetails := [runActivity1, runActivity2] }

/-- Claim C7.  With exactly the two Run activities (5000 m / 1800 s and
10000 m / 3600 s) in the detailed list, the summary reports the single
group line `Run: 2 activities, 15.0km, 1h 30m`. -/
theorem summarize_run_group :
    summaryActivityLines c7Result
      = ["   Run: 2 activities, 15.0km, 1h 30m"] := by
  norm_num [summaryActivityLines, c7Result, emptyResult, groupByType,
    addToGroup, groupLine, jsOr, runActivity1, runActivity2, toFixed1,
    jsFloor, jsMod, jsTrunc, List.foldl]
  decide

def workoutEmptyCategory : Workout :=
  { start_date_local := "2026-01-20T09:00:00", type := "Run"
    name := "Easy Run", description := "- 30m Z2", category := some "" }

def workoutRace : Workout :=
  { start_date_local := "2026-01-20T09:00:00", type := "Run"
    name := "Race Day", description := "- 10k race", category := some "RACE_A" }

/-- Claim C10, amended.  `uploadWorkout` sends the workout's own
category whenever it is set to a non-empty string, and the fixed
category `WORKOUT` when the field is unset or set to the empty string
(`workout.category || 'WORKOUT'`); the other payload fields pass
through unchanged. -/
theorem uploadWorkout_category_default (w : Workout) :
    ((w.category = none ∨ w.category = some "") →
      (uploadWorkoutEvent w).category = "WORKOUT")
    ∧ (∀ c, w.category = some c → c ≠ "" →
      (uploadWorkoutEvent w).category = c)
    ∧ (uploadWorkoutEvent w).start_date_local = w.start_date_local
    ∧ (uploadWorkoutEvent w).type = w.type
    ∧ (uploadWorkoutEvent w).name = w.name
    ∧ (uploadWorkoutEvent w).description = w.description := by
  refine ⟨fun h => ?_, fun c hc hne => ?_, rfl, rfl, rfl, rfl⟩
  · rcases h with h | h <;> simp [uploadWorkoutEvent, jsOr, h]
  · simp [uploadWorkoutEvent, jsOr, hc, hne]

/-- Claim C10 counterexample.  A workout whose category is set to the
empty string is uploaded with category `WORKOUT`, not with the set
value, because the default is applied by JavaScript truthiness rather
than by presence. -/
theorem uploadWorkout_empty_category_counterexample :
    workoutEmptyCategory.category = some ""
    ∧ (uploadWorkoutEvent workoutEmptyCategory).category = "WORKOUT" :=
  ⟨rfl, rfl⟩

/-- Claim C10 witness: a non-empty category passes through unchanged. -/
theorem uploadWorkout_category_default_witness :
    (uploadWorkoutEvent workoutRace).category = "RACE_A" :=
  (uploadWorkout_category_default workoutRace).2.1 "RACE_A" rfl (by decide)

end Coach
